import Mathlib

/-!
Verification of the annotation layout engine of the burn-up chart system
(`src/chart_generator.py`).  The engine groups task due-date markers by
calendar proximity, assigns tiered base positions per group, and resolves
visual collisions by a bounded greedy search.

Modelling conventions:
* calendar dates are day numbers (`ℤ`); Python's `(d1 - d2).days` is `d1 - d2`;
* Python floats are modelled as `ℚ` — every number the engine manipulates
  (integer heights, the offsets `-0.7`, `±1.5`, …) is exactly representable;
* Python's stable `sorted` is modelled by `List.insertionSort`, which is
  stable for the `≤`-by-key relation;
* label text is modelled as `List Char`; Python `str.split(" ")` is
  `List.splitOn ' '`.
-/

namespace Burnup

/-- A task annotation descriptor: the fields of the Python dict the layout
engine reads (`task_name`, `label`, `end_date`). -/
structure Task where
  taskName : String
  label : String
  endDate : ℤ
deriving DecidableEq, Repr

/-- `PositionedAnnotation` from the source: an annotation with computed
screen coordinates. -/
structure PositionedAnnot where
  task : Task
  y : ℚ
  xOffset : ℚ
  endDate : ℤ
  groupId : ℕ
deriving DecidableEq, Repr

/-- Sorting key relation used by `_group_annotations`: ascending `end_date`. -/
def taskLe (a b : Task) : Prop := a.endDate ≤ b.endDate

instance : DecidableRel taskLe :=
  fun a b => inferInstanceAs (Decidable (a.endDate ≤ b.endDate))

instance : IsTotal Task taskLe :=
  ⟨fun a b => le_total a.endDate b.endDate⟩

instance : IsTrans Task taskLe :=
  ⟨fun _ _ _ h1 h2 => le_trans h1 h2⟩

/-- `sorted(task_annotations, key=lambda item: item["end_date"])`:
a stable sort by end date. -/
def sortTasks (ts : List Task) : List Task := List.insertionSort taskLe ts

/-- `any(abs((task.end_date - existing.end_date).days) <= 5 for existing in group)`. -/
def nearGroup (t : Task) (g : List Task) : Bool :=
  g.any (fun e => decide ((t.endDate - e.endDate).natAbs ≤ 5))

/-- One step of the grouping loop: append `t` to the first group containing
some member within 5 days, else start a new singleton group at the end. -/
def insertTask (t : Task) : List (List Task) → List (List Task)
  | [] => [[t]]
  | g :: gs => if nearGroup t g then (g ++ [t]) :: gs else g :: insertTask t gs

/-- `ChartGenerator._group_annotations`: group annotations by end-date
proximity, processing tasks in sorted order. -/
def groupAnnots (ts : List Task) : List (List Task) :=
  (sortTasks ts).foldl (fun gs t => insertTask t gs) []

/-- Python `int(...)` on a float/rational: truncation toward zero. -/
def pyInt (q : ℚ) : ℤ := if 0 ≤ q then ⌊q⌋ else ⌈q⌉

/-- `ChartGenerator._base_heights`: baseline heights for a group of `n`
annotations.  For `n ≥ 5`: `step = 80 / n`,
`heights[i] = max(int(95 - i*step), 15)`. -/
def baseHeights (n : ℕ) : List ℚ :=
  if n = 1 then [80]
  else if n = 2 then [90, 70]
  else if n = 3 then [95, 80, 65]
  else if n = 4 then [95, 83, 71, 59]
  else
    (List.range n).map
      (fun i : ℕ => ((max (pyInt (95 - (i : ℚ) * (80 / n))) 15 : ℤ) : ℚ))

/-- `ChartGenerator._horizontal_offsets`: horizontal stagger offsets (days)
for a group of `n` annotations.  For `n ≥ 5`:
`offset[i] = 6 * (i / (n - 1)) - 3`. -/
def horizontalOffsets (n : ℕ) : List ℚ :=
  if n = 1 then [0]
  else if n = 2 then [-1, 1]
  else if n = 3 then [-2, 0, 2]
  else if n = 4 then [-2, -7/10, 7/10, 2]
  else
    (List.range n).map (fun i : ℕ => 6 * ((i : ℚ) / ((n : ℚ) - 1)) - 6 / 2)

/-- Base positions for one group: member `i` of a group of size `n` gets
`baseHeights n [i]` and `horizontalOffsets n [i]`. -/
def assignGroup (gid : ℕ) (g : List Task) : List PositionedAnnot :=
  g.enum.map (fun p =>
    { task := p.2
      y := (baseHeights g.length).getD p.1 0
      xOffset := (horizontalOffsets g.length).getD p.1 0
      endDate := p.2.endDate
      groupId := gid })

/-- `ChartGenerator._assign_base_positions`: flatten the groups into the
base-position list, `group_id` being the group's index. -/
def assignBasePositions (groups : List (List Task)) : List PositionedAnnot :=
  (groups.enum.map (fun p => assignGroup p.1 p.2)).flatten

/-- `ChartGenerator._check_collision`: overlap when horizontal distance
(date difference plus offset difference) is `< 3` and vertical distance
is `< 30`. -/
def checkCollision (p1 p2 : PositionedAnnot) : Bool :=
  decide (|((p1.endDate - p2.endDate : ℤ) : ℚ) + p1.xOffset - p2.xOffset| < 3
    ∧ |p1.y - p2.y| < 30)

/-- The fixed candidate-shift sequence of `_adjust_position`. -/
def adjustments : List ℚ := [0, 15, -15, 30, -30, 45, -45]

/-- Candidate `y` values from the shift sequence, skipping any outside
`[10, 95]` (the `if not 10 <= test_y <= 95: continue` filter). -/
def shiftCandidates (p : PositionedAnnot) : List ℚ :=
  adjustments.filterMap (fun a =>
    if 10 ≤ p.y + a ∧ p.y + a ≤ 95 then some (p.y + a) else none)

/-- The fallback scan values: Python `range(95, 10, -5)`.  The stop value
`10` is excluded by `range` semantics, so the scan ends at `15`. -/
def scanValues : List ℚ :=
  [95, 90, 85, 80, 75, 70, 65, 60, 55, 50, 45, 40, 35, 30, 25, 20, 15]

/-- Whether placing `p` at height `yVal` collides with any existing
annotation. -/
def collides (p : PositionedAnnot) (existing : List PositionedAnnot) (yVal : ℚ) : Bool :=
  existing.any (fun e => checkCollision { p with y := yVal } e)

/-- Try candidate heights in order; return the first collision-free one. -/
def tryCandidates (p : PositionedAnnot) (existing : List PositionedAnnot) :
    List ℚ → Option ℚ
  | [] => none
  | c :: cs => if collides p existing c then tryCandidates p existing cs else some c

/-- `ChartGenerator._adjust_position`: the resulting `y` and the success
flag.  On failure of both the shift candidates and the fallback scan, `y`
is restored to the original base height and `False` is returned. -/
def adjustPosition (p : PositionedAnnot) (existing : List PositionedAnnot) : ℚ × Bool :=
  match tryCandidates p existing (shiftCandidates p ++ scanValues) with
  | some c => (c, true)
  | none => (p.y, false)

/-- One step of `_resolve_collisions`: count collisions against the
finalized list; adjust when the count is positive; append regardless. -/
def resolveStep (final : List PositionedAnnot) (p : PositionedAnnot) :
    List PositionedAnnot :=
  if 0 < final.countP (fun e => checkCollision p e) then
    final ++ [{ p with y := (adjustPosition p final).1 }]
  else
    final ++ [p]

/-- `ChartGenerator._resolve_collisions`: process base positions in order,
nudging each one against the already-finalized annotations. -/
def resolveCollisions (base : List PositionedAnnot) : List PositionedAnnot :=
  base.foldl resolveStep []

/-- `ChartGenerator.calculate_smart_annotation_positions`: the full
pipeline (empty input short-circuits to an empty output). -/
def calculateSmartAnnotPositions (ts : List Task) : List PositionedAnnot :=
  if ts = [] then []
  else resolveCollisions (assignBasePositions (groupAnnots ts))

/-- The force-break loop of `wrap_text`:
`while len(word) > max_length: lines.append(word[:max_length]); word = word[max_length:]`.
(The guard `0 < maxLength` makes the model total; with `maxLength = 0` and a
nonempty word the Python loop would not terminate, and all claims assume a
positive maximum length.) -/
def forceBreak (maxLength : ℕ) (lines : List (List Char)) (word : List Char) :
    List (List Char) × List Char :=
  if _h : 0 < maxLength ∧ maxLength < word.length then
    forceBreak maxLength (lines ++ [word.take maxLength]) (word.drop maxLength)
  else (lines, word)
termination_by word.length
decreasing_by simp only [List.length_drop]; omega

/-- One step of `wrap_text`'s word loop, acting on `(lines, current_line)`. -/
def wrapStep (maxLength : ℕ) (st : List (List Char) × List Char) (word : List Char) :
    List (List Char) × List Char :=
  let testLine := st.2 ++ (if st.2 = [] then [] else [' ']) ++ word
  if testLine.length ≤ maxLength then (st.1, testLine)
  else if st.2 = [] then forceBreak maxLength st.1 word
  else (st.1 ++ [st.2], word)

/-- The list of lines produced by `ChartGenerator.wrap_text` (before the
`"<br>".join`). -/
def wrapLines (text : List Char) (maxLength : ℕ) : List (List Char) :=
  if text.length ≤ maxLength then [text]
  else
    let st := (text.splitOn ' ').foldl (wrapStep maxLength) ([], [])
    if st.2 = [] then st.1 else st.1 ++ [st.2]

/-- `ChartGenerator.wrap_text`: join the wrapped lines with `"<br>"`. -/
def wrapText (text : List Char) (maxLength : ℕ) : List Char :=
  List.intercalate ("<br>".toList) (wrapLines text maxLength)

/-- The fields of a positioned annotation other than `y`: the collision
resolver is supposed to touch nothing but `y`. -/
def frameOf (p : PositionedAnnot) : Task × ℚ × ℤ × ℕ :=
  (p.task, p.xOffset, p.endDate, p.groupId)

/-- Sample task used to instantiate universally quantified theorems. -/
def tW : Task := { taskName := "t", label := "t", endDate := 0 }

/-- The base position the engine assigns to the single group `[[tW]]`. -/
def pW : PositionedAnnot :=
  { task := tW, y := 80, xOffset := 0, endDate := 0, groupId := 0 }

/-- A base-positioned annotation whose seven candidate shifts and whole
fallback scan all collide with `exC2`, while height `10` would be free. -/
def pC2 : PositionedAnnot :=
  { task := tW, y := 80, xOffset := 0, endDate := 0, groupId := 0 }

/-- Already-finalized annotations at heights 40, 65, 90 on the same date:
every height in `{15, 20, …, 95}` is within 30 of one of them, but `10`
is not. -/
def exC2 : List PositionedAnnot :=
  [{ task := tW, y := 40, xOffset := 0, endDate := 0, groupId := 0 },
   { task := tW, y := 65, xOffset := 0, endDate := 0, groupId := 0 },
   { task := tW, y := 90, xOffset := 0, endDate := 0, groupId := 0 }]

/-- Five tasks with pairwise distances of at least 6 days: the grouper
makes five singleton groups. -/
def inC1 : List Task :=
  [{ taskName := "a", label := "a", endDate := 0 },
   { taskName := "b", label := "b", endDate := 10 },
   { taskName := "c", label := "c", endDate := 20 },
   { taskName := "d", label := "d", endDate := 30 },
   { taskName := "e", label := "e", endDate := 40 }]

/-! ### Helper lemmas: lengths -/

theorem insertTask_sum_length (t : Task) (gs : List (List Task)) :
    ((insertTask t gs).map List.length).sum = (gs.map List.length).sum + 1 := by
  induction gs with
  | nil => simp [insertTask]
  | cons g gs ih =>
    cases h : nearGroup t g with
    | true => simp [insertTask, h]; omega
    | false => simp [insertTask, h, ih]; omega

theorem foldl_insertTask_sum_length (l : List Task) :
    ∀ gs : List (List Task),
      ((l.foldl (fun gs t => insertTask t gs) gs).map List.length).sum
        = (gs.map List.length).sum + l.length := by
  induction l with
  | nil => intro gs; simp
  | cons t l ih =>
    intro gs
    rw [List.foldl_cons, ih, insertTask_sum_length]
    simp; omega

theorem groupAnnots_sum_length (ts : List Task) :
    ((groupAnnots ts).map List.length).sum = ts.length := by
  have h := foldl_insertTask_sum_length (sortTasks ts) []
  simpa [groupAnnots, sortTasks, (List.perm_insertionSort taskLe ts).length_eq]
    using h

theorem assignGroup_length (gid : ℕ) (g : List Task) :
    (assignGroup gid g).length = g.length := by
  simp [assignGroup, List.enum_length]

theorem assignBasePositions_length (groups : List (List Task)) :
    (assignBasePositions groups).length = (groups.map List.length).sum := by
  rw [assignBasePositions, List.length_flatten, List.map_map]
  have h : (fun p : ℕ × List Task => (assignGroup p.1 p.2).length)
      = (fun p : ℕ × List Task => p.2.length) := by
    funext p; exact assignGroup_length p.1 p.2
  rw [Function.comp_def]
  simp only [h]
  have h2 : (fun p : ℕ × List Task => p.2.length)
      = (List.length ∘ Prod.snd) := rfl
  rw [h2, ← List.map_map, List.enum_map_snd]

theorem resolveStep_length (final : List PositionedAnnot) (p : PositionedAnnot) :
    (resolveStep final p).length = final.length + 1 := by
  unfold resolveStep; split <;> simp

theorem foldl_resolveStep_length (base : List PositionedAnnot) :
    ∀ acc, (base.foldl resolveStep acc).length = acc.length + base.length := by
  induction base with
  | nil => intro acc; simp
  | cons p base ih =>
    intro acc
    rw [List.foldl_cons, ih, resolveStep_length]
    simp; omega

theorem resolveCollisions_length (base : List PositionedAnnot) :
    (resolveCollisions base).length = base.length := by
  simpa [resolveCollisions] using foldl_resolveStep_length base []

/-! ### Helper lemmas: the resolver only rewrites `y` -/

theorem resolveStep_frame (final : List PositionedAnnot) (p : PositionedAnnot) :
    (resolveStep final p).map frameOf = final.map frameOf ++ [frameOf p] := by
  unfold resolveStep; split <;> simp [frameOf]

theorem resolveCollisions_frame (base : List PositionedAnnot) :
    (resolveCollisions base).map frameOf = base.map frameOf := by
  suffices h : ∀ acc, ((base.foldl resolveStep acc).map frameOf)
      = acc.map frameOf ++ base.map frameOf by
    simpa [resolveCollisions] using h []
  induction base with
  | nil => intro acc; simp
  | cons p base ih =>
    intro acc
    rw [List.foldl_cons, ih, resolveStep_frame]
    simp

theorem assignBasePositions_endDate (groups : List (List Task)) :
    ∀ p ∈ assignBasePositions groups, p.endDate = p.task.endDate := by
  intro p hp
  rw [assignBasePositions, List.mem_flatten] at hp
  obtain ⟨l, hl, hpl⟩ := hp
  rw [List.mem_map] at hl
  obtain ⟨q, _, rfl⟩ := hl
  rw [assignGroup, List.mem_map] at hpl
  obtain ⟨r, _, rfl⟩ := hpl
  rfl

/-! ### Helper lemmas: the `[10, 95]` range invariant -/

theorem pyInt_le {q : ℚ} {b : ℤ} (h : q ≤ (b : ℚ)) : pyInt q ≤ b := by
  rw [pyInt]
  split
  · calc ⌊q⌋ ≤ ⌊((b : ℚ) : ℚ)⌋ := Int.floor_le_floor h
      _ = b := Int.floor_intCast b
  · exact Int.ceil_le.mpr h

theorem baseHeights_length (n : ℕ) : (baseHeights n).length = n := by
  rw [baseHeights]
  repeat' split
  all_goals simp only [List.length_cons, List.length_nil, List.length_map,
    List.length_range]
  all_goals omega

theorem horizontalOffsets_length (n : ℕ) : (horizontalOffsets n).length = n := by
  rw [horizontalOffsets]
  repeat' split
  all_goals simp only [List.length_cons, List.length_nil, List.length_map,
    List.length_range]
  all_goals omega

theorem baseHeights_bounds (n : ℕ) : ∀ y ∈ baseHeights n, 15 ≤ y ∧ y ≤ 95 := by
  intro y hy
  rw [baseHeights] at hy
  repeat' split at hy
  · simp at hy; subst hy; norm_num
  · simp at hy; rcases hy with rfl | rfl <;> norm_num
  · simp at hy; rcases hy with rfl | rfl | rfl <;> norm_num
  · simp at hy; rcases hy with rfl | rfl | rfl | rfl <;> norm_num
  · rw [List.mem_map] at hy
    obtain ⟨i, -, rfl⟩ := hy
    have hq : (95 : ℚ) - (i : ℚ) * (80 / n) ≤ ((95 : ℤ) : ℚ) := by
      push_cast
      have h80 : (0 : ℚ) ≤ 80 / (n : ℚ) :=
        div_nonneg (by norm_num) (Nat.cast_nonneg n)
      have hi : (0 : ℚ) ≤ (i : ℚ) := Nat.cast_nonneg i
      have := mul_nonneg hi h80
      linarith
    have hup : max (pyInt (95 - (i : ℚ) * (80 / n))) 15 ≤ (95 : ℤ) :=
      max_le (pyInt_le hq) (by norm_num)
    have hlo : (15 : ℤ) ≤ max (pyInt (95 - (i : ℚ) * (80 / n))) 15 :=
      le_max_right _ _
    constructor
    · exact_mod_cast hlo
    · exact_mod_cast hup

theorem assignBasePositions_y_bounds (groups : List (List Task)) :
    ∀ p ∈ assignBasePositions groups, 15 ≤ p.y ∧ p.y ≤ 95 := by
  intro p hp
  rw [assignBasePositions, List.mem_flatten] at hp
  obtain ⟨l, hl, hpl⟩ := hp
  rw [List.mem_map] at hl
  obtain ⟨q, -, rfl⟩ := hl
  rw [assignGroup, List.mem_map] at hpl
  obtain ⟨r, hr, rfl⟩ := hpl
  have hlt : r.1 < (baseHeights q.2.length).length := by
    rw [baseHeights_length]; exact List.fst_lt_of_mem_enum hr
  dsimp only
  rw [List.getD_eq_getElem _ _ hlt]
  exact baseHeights_bounds _ _ (List.getElem_mem hlt)

theorem tryCandidates_mem {p : PositionedAnnot} {ex : List PositionedAnnot}
    {c : ℚ} : ∀ {cs : List ℚ}, tryCandidates p ex cs = some c → c ∈ cs := by
  intro cs
  induction cs with
  | nil => intro h; simp [tryCandidates] at h
  | cons c0 cs ih =>
    intro h
    rw [tryCandidates] at h
    split at h
    · exact List.mem_cons_of_mem _ (ih h)
    · simp only [Option.some.injEq] at h
      subst h
      exact List.mem_cons_self _ _

theorem shiftCandidates_bounds (p : PositionedAnnot) :
    ∀ c ∈ shiftCandidates p, 10 ≤ c ∧ c ≤ 95 := by
  intro c hc
  rw [shiftCandidates, List.mem_filterMap] at hc
  obtain ⟨a, -, ha⟩ := hc
  by_cases h : 10 ≤ p.y + a ∧ p.y + a ≤ 95
  · rw [if_pos h] at ha
    cases ha
    exact h
  · rw [if_neg h] at ha
    cases ha

theorem scanValues_bounds : ∀ c ∈ scanValues, 10 ≤ c ∧ c ≤ 95 := by
  intro c hc
  fin_cases hc <;> norm_num

theorem adjustPosition_y_bounds (p : PositionedAnnot) (ex : List PositionedAnnot)
    (hp : 10 ≤ p.y ∧ p.y ≤ 95) :
    10 ≤ (adjustPosition p ex).1 ∧ (adjustPosition p ex).1 ≤ 95 := by
  rw [adjustPosition]
  split
  next c hc =>
    rcases List.mem_append.mp (tryCandidates_mem hc) with h | h
    · exact shiftCandidates_bounds p c h
    · exact scanValues_bounds c h
  next => exact hp

theorem foldl_resolveStep_y_bounds :
    ∀ (base acc : List PositionedAnnot),
      (∀ q ∈ acc, 10 ≤ q.y ∧ q.y ≤ 95) →
      (∀ p ∈ base, 10 ≤ p.y ∧ p.y ≤ 95) →
      ∀ q ∈ base.foldl resolveStep acc, 10 ≤ q.y ∧ q.y ≤ 95 := by
  intro base
  induction base with
  | nil => intro acc hacc _ q hq; exact hacc q hq
  | cons p base ih =>
    intro acc hacc hbase q hq
    rw [List.foldl_cons] at hq
    refine ih (resolveStep acc p) ?_
      (fun r hr => hbase r (List.mem_cons_of_mem _ hr)) q hq
    intro r hr
    have hp := hbase p (List.mem_cons_self _ _)
    rw [resolveStep] at hr
    split at hr <;> rcases List.mem_append.mp hr with h | h
    · exact hacc r h
    · have hrp : r = { p with y := (adjustPosition p acc).1 } := by simpa using h
      subst hrp
      exact adjustPosition_y_bounds p acc hp
    · exact hacc r h
    · have hrp : r = p := by simpa using h
      subst hrp
      exact hp

theorem resolveCollisions_y_bounds (base : List PositionedAnnot)
    (hbase : ∀ p ∈ base, 10 ≤ p.y ∧ p.y ≤ 95) :
    ∀ q ∈ resolveCollisions base, 10 ≤ q.y ∧ q.y ≤ 95 := by
  rw [resolveCollisions]
  exact foldl_resolveStep_y_bounds base [] (by simp) hbase

/-! ### Claims C7, C8, C9 -/

/-- Claim C7: for every finite list of well-formed annotation inputs
(including the empty list) the engine terminates — it is a total Lean
function — and returns a list of exactly the input's length; the empty
input yields the empty output. -/
theorem C7_cardinality (ts : List Task) :
    (calculateSmartAnnotPositions ts).length = ts.length
      ∧ calculateSmartAnnotPositions [] = [] := by
  refine ⟨?_, rfl⟩
  rw [calculateSmartAnnotPositions]
  split
  · simp [*]
  · rw [resolveCollisions_length, assignBasePositions_length,
      groupAnnots_sum_length]

/-- Claim C8: determinism — two calls of the engine on the same input list
(in the same order) return identical outputs: same tasks, `y` values,
offsets, end dates and group ids. -/
theorem C8_deterministic (ts1 ts2 : List Task) (h : ts1 = ts2) :
    calculateSmartAnnotPositions ts1 = calculateSmartAnnotPositions ts2 := by
  rw [h]

theorem C8_deterministic_witness :
    calculateSmartAnnotPositions [tW] = calculateSmartAnnotPositions [tW] :=
  C8_deterministic [tW] [tW] rfl

/-- Claim C9: the collision-resolution phase changes only the `y` field:
mapping every annotation to its (task, xOffset, endDate, groupId) tuple
commutes with `resolveCollisions`; and every base position's `endDate` is
the original task's end date (never mutated). -/
theorem C9_resolve_only_y :
    (∀ base : List PositionedAnnot,
        (resolveCollisions base).map frameOf = base.map frameOf)
      ∧ ∀ (groups : List (List Task)) (p : PositionedAnnot),
          p ∈ assignBasePositions groups → p.endDate = p.task.endDate :=
  ⟨resolveCollisions_frame, assignBasePositions_endDate⟩

theorem C9_resolve_only_y_witness :
    (resolveCollisions [pW]).map frameOf = [pW].map frameOf
      ∧ pW.endDate = pW.task.endDate :=
  ⟨C9_resolve_only_y.1 [pW],
   C9_resolve_only_y.2 [[tW]] pW (List.mem_singleton.mpr rfl)⟩

/-- Claim C4: every annotation in the final output of the engine has its
`y` value in the closed range `[10, 95]`. -/
theorem C4_y_range (ts : List Task) :
    ∀ p ∈ calculateSmartAnnotPositions ts, 10 ≤ p.y ∧ p.y ≤ 95 := by
  intro p hp
  rw [calculateSmartAnnotPositions] at hp
  split at hp
  · simp at hp
  · refine resolveCollisions_y_bounds _ ?_ p hp
    intro q hq
    have h := assignBasePositions_y_bounds _ q hq
    constructor <;> linarith [h.1, h.2]

theorem C4_y_range_witness : 10 ≤ pW.y ∧ pW.y ≤ 95 :=
  C4_y_range [tW] pW (by
    have h : calculateSmartAnnotPositions [tW] = [pW] := rfl
    rw [h]
    exact List.mem_singleton.mpr rfl)

/-! ### Claim C2: the fallback scan -/

theorem tryCandidates_eq_find (p : PositionedAnnot) (ex : List PositionedAnnot) :
    ∀ cs : List ℚ, tryCandidates p ex cs = cs.find? (fun c => !collides p ex c) := by
  intro cs
  induction cs with
  | nil => rfl
  | cons c cs ih =>
    rw [tryCandidates, List.find?]
    cases h : collides p ex c with
    | true => simp [h, ih]
    | false => simp [h]

theorem tryCandidates_append_fail (p : PositionedAnnot) (ex : List PositionedAnnot)
    (cs1 cs2 : List ℚ) (h : ∀ c ∈ cs1, collides p ex c = true) :
    tryCandidates p ex (cs1 ++ cs2) = tryCandidates p ex cs2 := by
  induction cs1 with
  | nil => rfl
  | cons c cs1 ih =>
    rw [List.cons_append, tryCandidates, if_pos (h c (List.mem_cons_self _ _))]
    exact ih fun c hc => h c (List.mem_cons_of_mem _ hc)

theorem collidesC2_eval (c : ℚ) :
    collides pC2 exC2 c =
      (decide (|c - 40| < 30)
        || (decide (|c - 65| < 30) || decide (|c - 90| < 30))) := by
  simp only [collides, exC2, pC2, checkCollision, List.any_cons, List.any_nil,
    Bool.or_false]
  norm_num

theorem shiftCandidatesC2 : shiftCandidates pC2 = [80, 95, 65, 50, 35] := by
  simp only [shiftCandidates, adjustments, pC2, List.filterMap]
  norm_num

/-- Claim C2 is false on the code: at `pC2`/`exC2` every in-range candidate
shift collides and `y = 10` is the only collision-free height in
`{95, 90, …, 15, 10}`, yet `_adjust_position` returns the base height `80`
with failure instead of assigning `10` — Python's `range(95, 10, -5)` never
tries `10`. -/
theorem C2_counterexample :
    (shiftCandidates pC2).all (fun c => collides pC2 exC2 c) = true
      ∧ collides pC2 exC2 10 = false
      ∧ adjustPosition pC2 exC2 = (80, false)
      ∧ (adjustPosition pC2 exC2).1 ≠ 10 := by
  have hadj : adjustPosition pC2 exC2 = (80, false) := by
    simp only [adjustPosition, shiftCandidatesC2, scanValues]
    simp only [List.cons_append, List.nil_append, tryCandidates, collidesC2_eval]
    norm_num [abs_lt, pC2]
  refine ⟨?_, ?_, hadj, ?_⟩
  · simp only [shiftCandidatesC2, List.all_cons, List.all_nil, collidesC2_eval]
    norm_num [abs_lt]
  · simp only [collidesC2_eval]
    norm_num [abs_lt]
  · rw [hadj]
    norm_num

/-- Claim C2 (amended): when every in-range candidate shift collides, the
resolver falls back to a linear scan of `y` from `95` down to `15` in steps
of `5` — Python's `range(95, 10, -5)` excludes the stop value `10` — and
accepts the first collision-free scanned value; if none is free (even when
`y = 10` would be), it reverts to the base `y` and reports failure. -/
theorem C2_scan_fallback (p : PositionedAnnot) (ex : List PositionedAnnot)
    (h : ∀ c ∈ shiftCandidates p, collides p ex c = true) :
    scanValues = [95, 90, 85, 80, 75, 70, 65, 60, 55, 50, 45, 40, 35, 30, 25, 20, 15]
      ∧ adjustPosition p ex =
          match scanValues.find? (fun c => !collides p ex c) with
          | some c => (c, true)
          | none => (p.y, false) := by
  refine ⟨rfl, ?_⟩
  rw [adjustPosition, tryCandidates_append_fail p ex _ _ h,
    tryCandidates_eq_find]

/-! ### Claim C1: the size-5 tables -/

theorem countP_checkCollision_eq_zero (p : PositionedAnnot)
    (acc : List PositionedAnnot) (h : ∀ e ∈ acc, checkCollision p e = false) :
    acc.countP (fun e => checkCollision p e) = 0 := by
  rw [List.countP_eq_zero]
  intro e he
  simp [h e he]

theorem foldl_resolveStep_no_collision :
    ∀ (base acc : List PositionedAnnot),
      (∀ p ∈ base, ∀ e ∈ acc, checkCollision p e = false) →
      base.Pairwise (fun a b => checkCollision b a = false) →
      base.foldl resolveStep acc = acc ++ base := by
  intro base
  induction base with
  | nil => intro acc _ _; simp
  | cons p base ih =>
    intro acc hacc hpair
    rw [List.foldl_cons]
    have hstep : resolveStep acc p = acc ++ [p] := by
      rw [resolveStep, countP_checkCollision_eq_zero p acc
        (hacc p (List.mem_cons_self _ _))]
      simp
    rw [hstep, ih (acc ++ [p]) ?_ (List.Pairwise.of_cons hpair)]
    · simp
    · intro q hq e he
      rcases List.mem_append.mp he with h1 | h1
      · exact hacc q (List.mem_cons_of_mem _ hq) e h1
      · have hep : e = p := by simpa using h1
        subst hep
        exact (List.pairwise_cons.mp hpair).1 q hq

/-- If no pair of base positions collides (later against earlier), the
resolver leaves every position unchanged. -/
theorem resolveCollisions_no_collision (base : List PositionedAnnot)
    (hpair : base.Pairwise (fun a b => checkCollision b a = false)) :
    resolveCollisions base = base := by
  rw [resolveCollisions, foldl_resolveStep_no_collision base [] (by simp) hpair]
  simp

theorem baseHeights_five : baseHeights 5 = [95, 79, 63, 47, 31] := by
  rw [baseHeights]
  norm_num [List.range_succ, pyInt]

theorem horizontalOffsets_five :
    horizontalOffsets 5 = [-3, -3/2, 0, 3/2, 3] := by
  rw [horizontalOffsets]
  norm_num [List.range_succ]

/-- No collision when the later annotation sits at least 3 days to the
right of the earlier one (screen distance: date difference plus offsets). -/
theorem checkCollision_false_of_ge (p q : PositionedAnnot)
    (h : 3 ≤ ((p.endDate - q.endDate : ℤ) : ℚ) + p.xOffset - q.xOffset) :
    checkCollision p q = false := by
  simp only [checkCollision, decide_eq_false_iff_not, not_and]
  intro h1
  rw [abs_lt] at h1
  linarith [h1.2]

/-- Claim C1 is false on the code: five annotations with pairwise distances
greater than 5 days land in five singleton groups, so each gets the size-1
base position `y = 80`, `xOffset = 0` — not the size-5 tables
`[95, 79, 63, 47, 31]` and `[-3, -1.5, 0, 1.5, 3]`. -/
theorem C1_counterexample :
    (inC1.map (fun t => t.endDate)).Pairwise (fun d1 d2 => 5 < |d2 - d1|)
      ∧ (calculateSmartAnnotPositions inC1).map (fun p => p.y)
          = [80, 80, 80, 80, 80]
      ∧ (calculateSmartAnnotPositions inC1).map (fun p => p.xOffset)
          = [0, 0, 0, 0, 0]
      ∧ (calculateSmartAnnotPositions inC1).map (fun p => p.y)
          ≠ [95, 79, 63, 47, 31] := by
  have hbase : assignBasePositions (groupAnnots inC1) =
      [{ task := { taskName := "a", label := "a", endDate := 0 },
         y := 80, xOffset := 0, endDate := 0, groupId := 0 },
       { task := { taskName := "b", label := "b", endDate := 10 },
         y := 80, xOffset := 0, endDate := 10, groupId := 1 },
       { task := { taskName := "c", label := "c", endDate := 20 },
         y := 80, xOffset := 0, endDate := 20, groupId := 2 },
       { task := { taskName := "d", label := "d", endDate := 30 },
         y := 80, xOffset := 0, endDate := 30, groupId := 3 },
       { task := { taskName := "e", label := "e", endDate := 40 },
         y := 80, xOffset := 0, endDate := 40, groupId := 4 }] := rfl
  have hres := resolveCollisions_no_collision
    (assignBasePositions (groupAnnots inC1)) (by
    rw [hbase]
    refine List.Pairwise.cons ?_ (List.Pairwise.cons ?_ (List.Pairwise.cons ?_
      (List.Pairwise.cons ?_ (List.pairwise_singleton _ _)))) <;>
      (intro a' ha'
       fin_cases ha' <;> (apply checkCollision_false_of_ge; norm_num)))
  have hcalc : calculateSmartAnnotPositions inC1
      = assignBasePositions (groupAnnots inC1) := by
    rw [calculateSmartAnnotPositions, if_neg (by simp [inC1])]
    rw [hbase] at hres ⊢
    exact hres
  refine ⟨?_, ?_, ?_, ?_⟩
  · simp only [inC1, List.map_cons, List.map_nil, List.pairwise_cons,
      List.mem_cons, List.not_mem_nil, List.Pairwise.nil, and_true]
    norm_num
  · rw [hcalc, hbase]; rfl
  · rw [hcalc, hbase]; rfl
  · rw [hcalc, hbase]
    intro h
    have h0 := congrArg (fun l => l.headI) h
    simp at h0

/-- A sorted list is determined by its multiset of elements when the
target arrangement has strictly increasing end dates. -/
theorem sorted_strict_unique :
    ∀ l1 l2 : List Task, l1.Perm l2 → l1.Sorted taskLe →
      l2.Pairwise (fun u v : Task => u.endDate < v.endDate) → l1 = l2 := by
  intro l1
  induction l1 with
  | nil =>
    intro l2 hperm _ _
    exact (List.Perm.nil_eq hperm).symm ▸ rfl
  | cons a t1 ih =>
    intro l2 hperm hsort hpair
    cases l2 with
    | nil => exact absurd hperm.eq_nil (by simp)
    | cons b t2 =>
      have hab : a = b := by
        by_contra hne
        have haIn : a ∈ b :: t2 := hperm.mem_iff.mp (List.mem_cons_self _ _)
        have hbIn : b ∈ a :: t1 := hperm.mem_iff.mpr (List.mem_cons_self _ _)
        have ha2 : a ∈ t2 := by
          rcases List.mem_cons.mp haIn with h | h
          · exact absurd h hne
          · exact h
        have hb1 : b ∈ t1 := by
          rcases List.mem_cons.mp hbIn with h | h
          · exact absurd h.symm hne
          · exact h
        have h1 : b.endDate < a.endDate := (List.pairwise_cons.mp hpair).1 a ha2
        have h2 : a.endDate ≤ b.endDate :=
          (List.sorted_cons.mp hsort).1 b hb1
        omega
      subst hab
      have htail := ih t2 (hperm.cons_inv) (List.sorted_cons.mp hsort).2
        (List.pairwise_cons.mp hpair).2
      rw [htail]

/-- Claim C1 (amended): five annotations, in any input order, with distinct
end dates whose consecutive sorted dates are between 2 and 5 days apart
chain into one group of five, which receives the generic size-5 base
heights `[95, 79, 63, 47, 31]` and offsets `[-3, -1.5, 0, 1.5, 3]`; no
collisions occur, so these are also the final `y` and `xOffset` values.
Five annotations, in any input order, whose dates are pairwise more than
5 days apart (consecutive sorted gaps of at least 6) instead form five
singleton groups, each with final `y = 80` and `xOffset = 0`. -/
theorem C1_size5 :
    (∀ (l : List Task) (a b c d e : Task) (g1 g2 g3 g4 : ℤ),
      b.endDate = a.endDate + g1 → c.endDate = b.endDate + g2 →
      d.endDate = c.endDate + g3 → e.endDate = d.endDate + g4 →
      2 ≤ g1 ∧ g1 ≤ 5 → 2 ≤ g2 ∧ g2 ≤ 5 → 2 ≤ g3 ∧ g3 ≤ 5 → 2 ≤ g4 ∧ g4 ≤ 5 →
      l.Perm [a, b, c, d, e] →
      (calculateSmartAnnotPositions l).map (fun p => p.y)
          = [95, 79, 63, 47, 31]
        ∧ (calculateSmartAnnotPositions l).map (fun p => p.xOffset)
          = [-3, -3/2, 0, 3/2, 3])
      ∧ ∀ (l : List Task) (a b c d e : Task) (g1 g2 g3 g4 : ℤ),
        b.endDate = a.endDate + g1 → c.endDate = b.endDate + g2 →
        d.endDate = c.endDate + g3 → e.endDate = d.endDate + g4 →
        6 ≤ g1 → 6 ≤ g2 → 6 ≤ g3 → 6 ≤ g4 →
        l.Perm [a, b, c, d, e] →
        (calculateSmartAnnotPositions l).map (fun p => p.y)
            = [80, 80, 80, 80, 80]
          ∧ (calculateSmartAnnotPositions l).map (fun p => p.xOffset)
            = [0, 0, 0, 0, 0] := by
  constructor
  · intro l a b c d e g1 g2 g3 g4 hb hc hd he h1 h2 h3 h4 hperm
    have hlne : l ≠ [] := by
      intro h0
      rw [h0] at hperm
      simpa using hperm.length_eq
    have hsort : sortTasks l = [a, b, c, d, e] := by
      apply sorted_strict_unique
      · exact (List.perm_insertionSort taskLe l).trans hperm
      · exact List.sorted_insertionSort taskLe l
      · refine List.Pairwise.cons ?_ (List.Pairwise.cons ?_
          (List.Pairwise.cons ?_ (List.Pairwise.cons ?_
            (List.pairwise_singleton _ _)))) <;>
          (intro a' ha'; fin_cases ha' <;> omega)
    have hvb : nearGroup b [a] = true := by
      simp [nearGroup]; omega
    have hvc : nearGroup c [a, b] = true := by
      simp [nearGroup]; omega
    have hvd : nearGroup d [a, b, c] = true := by
      simp [nearGroup]; omega
    have hve : nearGroup e [a, b, c, d] = true := by
      simp [nearGroup]; omega
    have hgroup : groupAnnots l = [[a, b, c, d, e]] := by
      rw [groupAnnots, hsort]
      simp only [List.foldl_cons, List.foldl_nil]
      rw [show insertTask a ([] : List (List Task)) = [[a]] from rfl]
      simp only [insertTask, hvb, if_true, List.cons_append, List.nil_append,
        hvc, hvd, hve]
    have hassign : assignBasePositions [[a, b, c, d, e]] =
        [{ task := a, y := 95, xOffset := -3, endDate := a.endDate, groupId := 0 },
         { task := b, y := 79, xOffset := -3/2, endDate := b.endDate, groupId := 0 },
         { task := c, y := 63, xOffset := 0, endDate := c.endDate, groupId := 0 },
         { task := d, y := 47, xOffset := 3/2, endDate := d.endDate, groupId := 0 },
         { task := e, y := 31, xOffset := 3, endDate := e.endDate, groupId := 0 }] := by
      simp only [assignBasePositions, assignGroup, List.enum, List.enumFrom,
        List.map_cons, List.map_nil, List.flatten, List.length_cons,
        List.length_nil, List.append_nil, List.nil_append]
      norm_num [baseHeights_five, horizontalOffsets_five]
    have hbq : (b.endDate : ℚ) = (a.endDate : ℚ) + (g1 : ℚ) := by exact_mod_cast hb
    have hcq : (c.endDate : ℚ) = (b.endDate : ℚ) + (g2 : ℚ) := by exact_mod_cast hc
    have hdq : (d.endDate : ℚ) = (c.endDate : ℚ) + (g3 : ℚ) := by exact_mod_cast hd
    have heq : (e.endDate : ℚ) = (d.endDate : ℚ) + (g4 : ℚ) := by exact_mod_cast he
    have hq1 : (2 : ℚ) ≤ (g1 : ℚ) := by exact_mod_cast h1.1
    have hq2 : (2 : ℚ) ≤ (g2 : ℚ) := by exact_mod_cast h2.1
    have hq3 : (2 : ℚ) ≤ (g3 : ℚ) := by exact_mod_cast h3.1
    have hq4 : (2 : ℚ) ≤ (g4 : ℚ) := by exact_mod_cast h4.1
    have hpair := resolveCollisions_no_collision
      (assignBasePositions [[a, b, c, d, e]]) (by
        rw [hassign]
        refine List.Pairwise.cons ?_ (List.Pairwise.cons ?_ (List.Pairwise.cons ?_
          (List.Pairwise.cons ?_ (List.pairwise_singleton _ _)))) <;>
          (intro a' ha'
           fin_cases ha' <;>
             (apply checkCollision_false_of_ge
              push_cast
              linarith)))
    rw [calculateSmartAnnotPositions, if_neg hlne, hgroup, hpair, hassign]
    constructor <;> rfl
  · intro l a b c d e g1 g2 g3 g4 hb hc hd he h1 h2 h3 h4 hperm
    have hlne : l ≠ [] := by
      intro h0
      rw [h0] at hperm
      simpa using hperm.length_eq
    have hsort : sortTasks l = [a, b, c, d, e] := by
      apply sorted_strict_unique
      · exact (List.perm_insertionSort taskLe l).trans hperm
      · exact List.sorted_insertionSort taskLe l
      · refine List.Pairwise.cons ?_ (List.Pairwise.cons ?_
          (List.Pairwise.cons ?_ (List.Pairwise.cons ?_
            (List.pairwise_singleton _ _)))) <;>
          (intro a' ha'; fin_cases ha' <;> omega)
    have n1 : nearGroup b [a] = false := by simp [nearGroup]; omega
    have n2 : nearGroup c [a] = false := by simp [nearGroup]; omega
    have n3 : nearGroup c [b] = false := by simp [nearGroup]; omega
    have n4 : nearGroup d [a] = false := by simp [nearGroup]; omega
    have n5 : nearGroup d [b] = false := by simp [nearGroup]; omega
    have n6 : nearGroup d [c] = false := by simp [nearGroup]; omega
    have n7 : nearGroup e [a] = false := by simp [nearGroup]; omega
    have n8 : nearGroup e [b] = false := by simp [nearGroup]; omega
    have n9 : nearGroup e [c] = false := by simp [nearGroup]; omega
    have n10 : nearGroup e [d] = false := by simp [nearGroup]; omega
    have hgroup : groupAnnots l = [[a], [b], [c], [d], [e]] := by
      rw [groupAnnots, hsort]
      simp only [List.foldl_cons, List.foldl_nil]
      rw [show insertTask a ([] : List (List Task)) = [[a]] from rfl]
      simp [insertTask, n1, n2, n3, n4, n5, n6, n7, n8, n9, n10]
    have hassign : assignBasePositions [[a], [b], [c], [d], [e]] =
        [{ task := a, y := 80, xOffset := 0, endDate := a.endDate, groupId := 0 },
         { task := b, y := 80, xOffset := 0, endDate := b.endDate, groupId := 1 },
         { task := c, y := 80, xOffset := 0, endDate := c.endDate, groupId := 2 },
         { task := d, y := 80, xOffset := 0, endDate := d.endDate, groupId := 3 },
         { task := e, y := 80, xOffset := 0, endDate := e.endDate, groupId := 4 }] := rfl
    have hbq : (b.endDate : ℚ) = (a.endDate : ℚ) + (g1 : ℚ) := by exact_mod_cast hb
    have hcq : (c.endDate : ℚ) = (b.endDate : ℚ) + (g2 : ℚ) := by exact_mod_cast hc
    have hdq : (d.endDate : ℚ) = (c.endDate : ℚ) + (g3 : ℚ) := by exact_mod_cast hd
    have heq : (e.endDate : ℚ) = (d.endDate : ℚ) + (g4 : ℚ) := by exact_mod_cast he
    have hq1 : (6 : ℚ) ≤ (g1 : ℚ) := by exact_mod_cast h1
    have hq2 : (6 : ℚ) ≤ (g2 : ℚ) := by exact_mod_cast h2
    have hq3 : (6 : ℚ) ≤ (g3 : ℚ) := by exact_mod_cast h3
    have hq4 : (6 : ℚ) ≤ (g4 : ℚ) := by exact_mod_cast h4
    have hpair := resolveCollisions_no_collision
      (assignBasePositions [[a], [b], [c], [d], [e]]) (by
        rw [hassign]
        refine List.Pairwise.cons ?_ (List.Pairwise.cons ?_ (List.Pairwise.cons ?_
          (List.Pairwise.cons ?_ (List.pairwise_singleton _ _)))) <;>
          (intro a' ha'
           fin_cases ha' <;>
             (apply checkCollision_false_of_ge
              push_cast
              linarith)))
    rw [calculateSmartAnnotPositions, if_neg hlne, hgroup, hpair, hassign]
    constructor <;> rfl

theorem C1_size5_witness :
    ((calculateSmartAnnotPositions
        [{ taskName := "b", label := "b", endDate := 4 },
         { taskName := "a", label := "a", endDate := 0 },
         { taskName := "c", label := "c", endDate := 8 },
         { taskName := "d", label := "d", endDate := 12 },
         { taskName := "e", label := "e", endDate := 16 }]).map (fun p => p.y)
        = [95, 79, 63, 47, 31]
      ∧ (calculateSmartAnnotPositions
          [{ taskName := "b", label := "b", endDate := 4 },
           { taskName := "a", label := "a", endDate := 0 },
           { taskName := "c", label := "c", endDate := 8 },
           { taskName := "d", label := "d", endDate := 12 },
           { taskName := "e", label := "e", endDate := 16 }]).map
          (fun p => p.xOffset)
        = [-3, -3/2, 0, 3/2, 3])
    ∧ ((calculateSmartAnnotPositions
        [{ taskName := "b", label := "b", endDate := 10 },
         { taskName := "a", label := "a", endDate := 0 },
         { taskName := "c", label := "c", endDate := 20 },
         { taskName := "d", label := "d", endDate := 30 },
         { taskName := "e", label := "e", endDate := 40 }]).map (fun p => p.y)
        = [80, 80, 80, 80, 80]
      ∧ (calculateSmartAnnotPositions
          [{ taskName := "b", label := "b", endDate := 10 },
           { taskName := "a", label := "a", endDate := 0 },
           { taskName := "c", label := "c", endDate := 20 },
           { taskName := "d", label := "d", endDate := 30 },
           { taskName := "e", label := "e", endDate := 40 }]).map
          (fun p => p.xOffset)
        = [0, 0, 0, 0, 0]) :=
  ⟨C1_size5.1
      [{ taskName := "b", label := "b", endDate := 4 },
       { taskName := "a", label := "a", endDate := 0 },
       { taskName := "c", label := "c", endDate := 8 },
       { taskName := "d", label := "d", endDate := 12 },
       { taskName := "e", label := "e", endDate := 16 }]
      { taskName := "a", label := "a", endDate := 0 }
      { taskName := "b", label := "b", endDate := 4 }
      { taskName := "c", label := "c", endDate := 8 }
      { taskName := "d", label := "d", endDate := 12 }
      { taskName := "e", label := "e", endDate := 16 }
      4 4 4 4 (by norm_num) (by norm_num) (by norm_num) (by norm_num)
      (by norm_num) (by norm_num) (by norm_num) (by norm_num)
      (List.Perm.swap ({ taskName := "a", label := "a", endDate := 0 } : Task)
        ({ taskName := "b", label := "b", endDate := 4 } : Task)
        [({ taskName := "c", label := "c", endDate := 8 } : Task),
         ({ taskName := "d", label := "d", endDate := 12 } : Task),
         ({ taskName := "e", label := "e", endDate := 16 } : Task)]),
   C1_size5.2
      [{ taskName := "b", label := "b", endDate := 10 },
       { taskName := "a", label := "a", endDate := 0 },
       { taskName := "c", label := "c", endDate := 20 },
       { taskName := "d", label := "d", endDate := 30 },
       { taskName := "e", label := "e", endDate := 40 }]
      { taskName := "a", label := "a", endDate := 0 }
      { taskName := "b", label := "b", endDate := 10 }
      { taskName := "c", label := "c", endDate := 20 }
      { taskName := "d", label := "d", endDate := 30 }
      { taskName := "e", label := "e", endDate := 40 }
      10 10 10 10 (by norm_num) (by norm_num) (by norm_num) (by norm_num)
      (by norm_num) (by norm_num) (by norm_num) (by norm_num)
      (List.Perm.swap ({ taskName := "a", label := "a", endDate := 0 } : Task)
        ({ taskName := "b", label := "b", endDate := 10 } : Task)
        [({ taskName := "c", label := "c", endDate := 20 } : Task),
         ({ taskName := "d", label := "d", endDate := 30 } : Task),
         ({ taskName := "e", label := "e", endDate := 40 } : Task)])⟩

/-- Claim C5: for every input of exactly two annotations sharing the same
end date, resolution ends with heights 90 and 55 (the second shifted by
`-15` from its base 70), so the vertical distance is 35 ≥ 30 and the
collision predicate between the two outputs is false. -/
theorem C5_two_same_date (a b : Task) (hab : a.endDate = b.endDate) :
    calculateSmartAnnotPositions [a, b]
        = [{ task := a, y := 90, xOffset := -1, endDate := a.endDate, groupId := 0 },
           { task := b, y := 55, xOffset := 1, endDate := b.endDate, groupId := 0 }]
      ∧ checkCollision
          { task := b, y := 55, xOffset := 1, endDate := b.endDate, groupId := 0 }
          { task := a, y := 90, xOffset := -1, endDate := a.endDate, groupId := 0 }
          = false := by
  have hsort : sortTasks [a, b] = [a, b] := by
    rw [sortTasks]
    apply List.Sorted.insertionSort_eq
    simp [List.sorted_cons, taskLe, hab]
  have hgroup : groupAnnots [a, b] = [[a, b]] := by
    rw [groupAnnots, hsort]
    simp only [List.foldl_cons, List.foldl_nil]
    rw [show insertTask a ([] : List (List Task)) = [[a]] from rfl]
    have hnear : nearGroup b [a] = true := by
      simp [nearGroup, hab]
    simp [insertTask, hnear]
  have hassign : assignBasePositions [[a, b]] =
      [{ task := a, y := 90, xOffset := -1, endDate := a.endDate, groupId := 0 },
       { task := b, y := 70, xOffset := 1, endDate := b.endDate, groupId := 0 }] := rfl
  have hcol : checkCollision
      { task := b, y := 70, xOffset := 1, endDate := b.endDate, groupId := 0 }
      { task := a, y := 90, xOffset := -1, endDate := a.endDate, groupId := 0 }
      = true := by
    simp only [checkCollision, decide_eq_true_eq]
    rw [hab]
    norm_num [abs_lt]
  have hc70 : collides
      { task := b, y := 70, xOffset := 1, endDate := b.endDate, groupId := 0 }
      [{ task := a, y := 90, xOffset := -1, endDate := a.endDate, groupId := 0 }]
      70 = true := by
    simp only [collides, List.any_cons, List.any_nil, Bool.or_false,
      checkCollision, decide_eq_true_eq]
    rw [hab]
    norm_num [abs_lt]
  have hc85 : collides
      { task := b, y := 70, xOffset := 1, endDate := b.endDate, groupId := 0 }
      [{ task := a, y := 90, xOffset := -1, endDate := a.endDate, groupId := 0 }]
      85 = true := by
    simp only [collides, List.any_cons, List.any_nil, Bool.or_false,
      checkCollision, decide_eq_true_eq]
    rw [hab]
    norm_num [abs_lt]
  have hc55 : collides
      { task := b, y := 70, xOffset := 1, endDate := b.endDate, groupId := 0 }
      [{ task := a, y := 90, xOffset := -1, endDate := a.endDate, groupId := 0 }]
      55 = false := by
    simp only [collides, List.any_cons, List.any_nil, Bool.or_false,
      checkCollision, decide_eq_false_iff_not]
    rw [hab]
    norm_num [abs_lt]
  have hsc : shiftCandidates
      { task := b, y := 70, xOffset := 1, endDate := b.endDate, groupId := 0 }
      = [70, 85, 55, 40, 25] := by
    simp only [shiftCandidates, adjustments, List.filterMap]
    norm_num
  have hadj : adjustPosition
      { task := b, y := 70, xOffset := 1, endDate := b.endDate, groupId := 0 }
      [{ task := a, y := 90, xOffset := -1, endDate := a.endDate, groupId := 0 }]
      = (55, true) := by
    rw [adjustPosition, hsc]
    simp [tryCandidates, hc70, hc85, hc55]
  have hstep : resolveCollisions (assignBasePositions [[a, b]])
      = [{ task := a, y := 90, xOffset := -1, endDate := a.endDate, groupId := 0 },
         { task := b, y := 55, xOffset := 1, endDate := b.endDate, groupId := 0 }] := by
    rw [hassign, resolveCollisions]
    simp only [List.foldl_cons, List.foldl_nil]
    rw [show resolveStep []
        { task := a, y := 90, xOffset := -1, endDate := a.endDate, groupId := 0 }
        = [{ task := a, y := 90, xOffset := -1, endDate := a.endDate, groupId := 0 }]
      from rfl]
    rw [resolveStep, List.countP_cons, List.countP_nil, hcol]
    norm_num [hadj]
  refine ⟨?_, ?_⟩
  · rw [calculateSmartAnnotPositions, if_neg (by simp), hgroup, hstep]
  · simp only [checkCollision, decide_eq_false_iff_not]
    rw [hab]
    norm_num [abs_lt]

theorem C5_two_same_date_witness :
    calculateSmartAnnotPositions
        [{ taskName := "a", label := "a", endDate := 7 },
         { taskName := "b", label := "b", endDate := 7 }]
        = [{ task := { taskName := "a", label := "a", endDate := 7 },
             y := 90, xOffset := -1, endDate := 7, groupId := 0 },
           { task := { taskName := "b", label := "b", endDate := 7 },
             y := 55, xOffset := 1, endDate := 7, groupId := 0 }]
      ∧ checkCollision
          { task := { taskName := "b", label := "b", endDate := 7 },
            y := 55, xOffset := 1, endDate := 7, groupId := 0 }
          { task := { taskName := "a", label := "a", endDate := 7 },
            y := 90, xOffset := -1, endDate := 7, groupId := 0 }
          = false :=
  C5_two_same_date { taskName := "a", label := "a", endDate := 7 }
    { taskName := "b", label := "b", endDate := 7 } rfl

/-- Claim C6: every input of three annotations whose end dates are at
day-offsets 0, 4 and 8 of each other (in any input order) is chained by the
grouper into a single group of size 3, in ascending date order, even though
the extreme dates differ by 8 > 5 days. -/
theorem C6_chaining (l : List Task) (a b c : Task) (d : ℤ)
    (ha : a.endDate = d) (hb : b.endDate = d + 4) (hc : c.endDate = d + 8)
    (hperm : l.Perm [a, b, c]) :
    groupAnnots l = [[a, b, c]]
      ∧ (groupAnnots l).map List.length = [3]
      ∧ 5 < |c.endDate - a.endDate| := by
  have hsort : sortTasks l = [a, b, c] := by
    apply sorted_strict_unique
    · exact (List.perm_insertionSort taskLe l).trans hperm
    · exact List.sorted_insertionSort taskLe l
    · refine List.Pairwise.cons ?_ (List.Pairwise.cons ?_
        (List.pairwise_singleton _ _)) <;>
        (intro a' ha'; fin_cases ha' <;> omega)
  have hgroup : groupAnnots l = [[a, b, c]] := by
    rw [groupAnnots, hsort]
    simp only [List.foldl_cons, List.foldl_nil]
    rw [show insertTask a ([] : List (List Task)) = [[a]] from rfl]
    have hnb : nearGroup b [a] = true := by simp [nearGroup]; omega
    have hnc : nearGroup c [a, b] = true := by simp [nearGroup]; omega
    simp [insertTask, hnb, hnc]
  have h8 : c.endDate - a.endDate = 8 := by omega
  refine ⟨hgroup, by rw [hgroup]; rfl, by rw [h8]; norm_num⟩

theorem C6_chaining_witness :
    groupAnnots
        [{ taskName := "y", label := "y", endDate := 4 },
         { taskName := "x", label := "x", endDate := 0 },
         { taskName := "z", label := "z", endDate := 8 }]
      = [[{ taskName := "x", label := "x", endDate := 0 },
          { taskName := "y", label := "y", endDate := 4 },
          { taskName := "z", label := "z", endDate := 8 }]]
      ∧ (groupAnnots
          [{ taskName := "y", label := "y", endDate := 4 },
           { taskName := "x", label := "x", endDate := 0 },
           { taskName := "z", label := "z", endDate := 8 }]).map List.length
        = [3]
      ∧ 5 < |({ taskName := "z", label := "z", endDate := 8 } : Task).endDate
          - ({ taskName := "x", label := "x", endDate := 0 } : Task).endDate| :=
  C6_chaining _ _ _ _ 0 rfl rfl rfl
    (List.Perm.swap ({ taskName := "x", label := "x", endDate := 0 } : Task)
      ({ taskName := "y", label := "y", endDate := 4 } : Task)
      [({ taskName := "z", label := "z", endDate := 8 } : Task)])

/-! ### Claim C3: text wrapping -/

theorem forceBreak_spec (m : ℕ) (hm : 0 < m) (lines : List (List Char))
    (w : List Char) :
    (∀ l ∈ (forceBreak m lines w).1, l ∈ lines ∨ l.length ≤ m)
      ∧ (forceBreak m lines w).2.length ≤ m := by
  induction lines, w using forceBreak.induct m with
  | case1 lines w h ih =>
    rw [forceBreak, dif_pos h]
    refine ⟨?_, ih.2⟩
    intro l hl
    rcases ih.1 l hl with h1 | h1
    · rcases List.mem_append.mp h1 with h2 | h2
      · exact Or.inl h2
      · right
        have hlw : l = w.take m := by simpa using h2
        subst hlw
        simp [List.length_take]
    · exact Or.inr h1
  | case2 lines w h =>
    rw [forceBreak, dif_neg h]
    refine ⟨fun l hl => Or.inl hl, ?_⟩
    simp only []
    omega

theorem wrapStep_invariant (m : ℕ) (hm : 0 < m) (words : List (List Char))
    (st : List (List Char) × List Char) (word : List Char) (hword : word ∈ words)
    (hlines : ∀ l ∈ st.1, l.length ≤ m ∨ l ∈ words)
    (hcur : st.2.length ≤ m ∨ st.2 ∈ words) :
    (∀ l ∈ (wrapStep m st word).1, l.length ≤ m ∨ l ∈ words)
      ∧ ((wrapStep m st word).2.length ≤ m ∨ (wrapStep m st word).2 ∈ words) := by
  by_cases hc : st.2 = []
  · simp only [wrapStep, hc, List.nil_append, eq_self_iff_true, if_true]
    split
    · exact ⟨hlines, Or.inl ‹_›⟩
    · refine ⟨?_, Or.inl (forceBreak_spec m hm st.1 word).2⟩
      intro l hl
      rcases (forceBreak_spec m hm st.1 word).1 l hl with h1 | h1
      · exact hlines l h1
      · exact Or.inl h1
  · simp only [wrapStep, hc, if_false, ite_false]
    split
    · exact ⟨hlines, Or.inl ‹_›⟩
    · refine ⟨?_, Or.inr hword⟩
      intro l hl
      rcases List.mem_append.mp hl with h1 | h1
      · exact hlines l h1
      · have hl2 : l = st.2 := by simpa using h1
        subst hl2
        exact hcur

theorem wrap_foldl_invariant (m : ℕ) (hm : 0 < m) (words : List (List Char)) :
    ∀ (ws : List (List Char)) (st : List (List Char) × List Char),
      (∀ w ∈ ws, w ∈ words) →
      (∀ l ∈ st.1, l.length ≤ m ∨ l ∈ words) →
      (st.2.length ≤ m ∨ st.2 ∈ words) →
      (∀ l ∈ (ws.foldl (wrapStep m) st).1, l.length ≤ m ∨ l ∈ words)
        ∧ ((ws.foldl (wrapStep m) st).2.length ≤ m
            ∨ (ws.foldl (wrapStep m) st).2 ∈ words) := by
  intro ws
  induction ws with
  | nil => intro st _ h1 h2; exact ⟨h1, h2⟩
  | cons w ws ih =>
    intro st hws h1 h2
    rw [List.foldl_cons]
    have hstep := wrapStep_invariant m hm words st w
      (hws w (List.mem_cons_self _ _)) h1 h2
    exact ih _ (fun u hu => hws u (List.mem_cons_of_mem _ hu)) hstep.1 hstep.2

/-- Claim C3 is false on the code: with maximum length 4, the text
`"aa bbbbbb"` wraps to the lines `["aa", "bbbbbb"]` — the token `"bbbbbb"`
(length 6 > 4) is NOT force-split, because the force-break branch only
runs when the current line is empty, which happens only at the start of
the text. -/
theorem C3_counterexample :
    0 < 4
      ∧ wrapLines ("aa bbbbbb".toList) 4 = ["aa".toList, "bbbbbb".toList]
      ∧ "bbbbbb".toList ∈ wrapLines ("aa bbbbbb".toList) 4
      ∧ 4 < ("bbbbbb".toList).length := by
  decide

/-- Claim C3 (amended): for every text and positive maximum line length,
every produced line either has length at most the maximum or is one of the
input's space-separated tokens left whole (an over-long token is
force-split only when the accumulated current line is empty, i.e. only at
the start of the text). -/
theorem C3_wrap_lines (text : List Char) (m : ℕ) (hm : 0 < m) :
    ∀ l ∈ wrapLines text m, l.length ≤ m ∨ l ∈ text.splitOn ' ' := by
  intro l hl
  rw [wrapLines] at hl
  split at hl
  · have hlt : l = text := by simpa using hl
    subst hlt
    exact Or.inl ‹_›
  · have hinv := wrap_foldl_invariant m hm (text.splitOn ' ')
      (text.splitOn ' ') ([], []) (fun w hw => hw) (by simp) (Or.inl (by simp))
    simp only at hl
    split at hl
    · exact hinv.1 l hl
    · rcases List.mem_append.mp hl with h1 | h1
      · exact hinv.1 l h1
      · have hl2 : l = ((text.splitOn ' ').foldl (wrapStep m) ([], [])).2 := by
          simpa using h1
        subst hl2
        exact hinv.2

theorem C3_wrap_lines_witness :
    ("bbbbbb".toList).length ≤ 4
      ∨ "bbbbbb".toList ∈ ("aa bbbbbb".toList).splitOn ' ' :=
  C3_wrap_lines ("aa bbbbbb".toList) 4 (by norm_num) ("bbbbbb".toList)
    (by decide)

/-! ### Claim C10: group-id and in-group ordering structure -/

theorem insertTask_mem_src (t : Task) :
    ∀ gs : List (List Task), ∀ g ∈ insertTask t gs, ∀ u ∈ g,
      u = t ∨ ∃ g' ∈ gs, u ∈ g' := by
  intro gs
  induction gs with
  | nil =>
    intro g hg u hu
    simp only [insertTask, List.mem_singleton] at hg
    subst hg
    left
    simpa using hu
  | cons g0 gs ih =>
    intro g hg u hu
    rw [insertTask] at hg
    split at hg
    · rcases List.mem_cons.mp hg with rfl | hgs
      · rcases List.mem_append.mp hu with h1 | h1
        · exact Or.inr ⟨g0, List.mem_cons_self _ _, h1⟩
        · left; simpa using h1
      · exact Or.inr ⟨g, List.mem_cons_of_mem _ hgs, hu⟩
    · rcases List.mem_cons.mp hg with rfl | hgs
      · exact Or.inr ⟨g, List.mem_cons_self _ _, hu⟩
      · rcases ih g hgs u hu with h1 | ⟨g', hg', hu'⟩
        · exact Or.inl h1
        · exact Or.inr ⟨g', List.mem_cons_of_mem _ hg', hu'⟩

theorem insertTask_ne_nil (t : Task) :
    ∀ gs : List (List Task), (∀ g ∈ gs, g ≠ []) →
      ∀ g ∈ insertTask t gs, g ≠ [] := by
  intro gs
  induction gs with
  | nil =>
    intro _ g hg
    simp only [insertTask, List.mem_singleton] at hg
    subst hg
    simp
  | cons g0 gs ih =>
    intro hgs g hg
    rw [insertTask] at hg
    split at hg
    · rcases List.mem_cons.mp hg with rfl | h1
      · simp
      · exact hgs g (List.mem_cons_of_mem _ h1)
    · rcases List.mem_cons.mp hg with rfl | h1
      · exact hgs g (List.mem_cons_self _ _)
      · exact ih (fun g' h => hgs g' (List.mem_cons_of_mem _ h)) g h1

theorem insertTask_chain (t : Task) :
    ∀ gs : List (List Task), (∀ g ∈ gs, g.Chain' taskLe) →
      (∀ g ∈ gs, ∀ u ∈ g, taskLe u t) →
      ∀ g ∈ insertTask t gs, g.Chain' taskLe := by
  intro gs
  induction gs with
  | nil =>
    intro _ _ g hg
    simp only [insertTask, List.mem_singleton] at hg
    subst hg
    exact List.chain'_singleton t
  | cons g0 gs ih =>
    intro hchain hle g hg
    rw [insertTask] at hg
    split at hg
    · rcases List.mem_cons.mp hg with rfl | h1
      · rw [List.chain'_append]
        refine ⟨hchain g0 (List.mem_cons_self _ _), List.chain'_singleton t, ?_⟩
        intro x hx y hy
        have hxg : x ∈ g0 := List.mem_of_mem_getLast? hx
        have hyt : t = y := by simpa using hy
        subst hyt
        exact hle g0 (List.mem_cons_self _ _) x hxg
      · exact hchain g (List.mem_cons_of_mem _ h1)
    · rcases List.mem_cons.mp hg with rfl | h1
      · exact hchain g (List.mem_cons_self _ _)
      · exact ih (fun g' h => hchain g' (List.mem_cons_of_mem _ h))
          (fun g' h => hle g' (List.mem_cons_of_mem _ h)) g h1

theorem foldl_insertTask_groups :
    ∀ (l : List Task) (acc : List (List Task)),
      l.Sorted taskLe →
      (∀ g ∈ acc, ∀ u ∈ g, ∀ v ∈ l, taskLe u v) →
      (∀ g ∈ acc, g ≠ []) →
      (∀ g ∈ acc, g.Chain' taskLe) →
      (∀ g ∈ l.foldl (fun gs t => insertTask t gs) acc, g ≠ [])
        ∧ (∀ g ∈ l.foldl (fun gs t => insertTask t gs) acc, g.Chain' taskLe) := by
  intro l
  induction l with
  | nil => intro acc _ _ h1 h2; exact ⟨h1, h2⟩
  | cons t l ih =>
    intro acc hsort hbound hne hchain
    rw [List.foldl_cons]
    have hsc := List.sorted_cons.mp hsort
    refine ih (insertTask t acc) hsc.2 ?_ (insertTask_ne_nil t acc hne)
      (insertTask_chain t acc hchain
        (fun g hg u hu => hbound g hg u hu t (List.mem_cons_self _ _)))
    intro g hg u hu v hv
    rcases insertTask_mem_src t acc g hg u hu with rfl | ⟨g', hg', hu'⟩
    · exact hsc.1 v hv
    · exact hbound g' hg' u hu' v (List.mem_cons_of_mem _ hv)

theorem groupAnnots_ne_nil (ts : List Task) : ∀ g ∈ groupAnnots ts, g ≠ [] :=
  (foldl_insertTask_groups (sortTasks ts) []
    (List.sorted_insertionSort taskLe ts) (by simp) (by simp) (by simp)).1

theorem groupAnnots_chain (ts : List Task) :
    ∀ g ∈ groupAnnots ts, g.Chain' taskLe :=
  (foldl_insertTask_groups (sortTasks ts) []
    (List.sorted_insertionSort taskLe ts) (by simp) (by simp) (by simp)).2

theorem groupAnnots_ne_nil_of_ne_nil (ts : List Task) (h : ts ≠ []) :
    groupAnnots ts ≠ [] := by
  intro hg
  have hsum := groupAnnots_sum_length ts
  rw [hg] at hsum
  simp at hsum
  exact h (List.length_eq_zero.mp hsum.symm)

theorem gd_flatten_spec :
    ∀ (groups : List (List Task)) (k : ℕ),
      (∀ g ∈ groups, g ≠ []) →
      (∀ g ∈ groups, g.Chain' taskLe) →
      (∀ j : ℕ, (j ∈ ((groups.enumFrom k).map
            (fun p => p.2.map (fun t => (p.1, t.endDate)))).flatten.map Prod.fst)
          ↔ (k ≤ j ∧ j < k + groups.length))
        ∧ ((groups.enumFrom k).map
            (fun p => p.2.map (fun t => (p.1, t.endDate)))).flatten.Chain'
            (fun x y : ℕ × ℤ => x.1 ≤ y.1 ∧ (x.1 = y.1 → x.2 ≤ y.2)) := by
  intro groups
  induction groups with
  | nil =>
    intro k _ _
    constructor
    · intro j
      simp [List.enumFrom]
    · simp [List.enumFrom]
  | cons g gs ih =>
    intro k hne hchain
    have ihs := ih (k + 1) (fun g' h => hne g' (List.mem_cons_of_mem _ h))
      (fun g' h => hchain g' (List.mem_cons_of_mem _ h))
    have hgE : g ≠ [] := hne g (List.mem_cons_self _ _)
    simp only [List.enumFrom, List.map_cons, List.flatten_cons]
    constructor
    · intro j
      rw [List.map_append, List.mem_append]
      constructor
      · intro h
        rcases h with h | h
        · rw [List.map_map, List.mem_map] at h
          obtain ⟨u, -, hu⟩ := h
          simp only [Function.comp] at hu
          subst hu
          simp only [List.length_cons]
          omega
        · have := ((ihs.1 j).mp h)
          simp only [List.length_cons]
          omega
      · intro h
        simp only [List.length_cons] at h
        by_cases hjk : j = k
        · left
          subst hjk
          obtain ⟨u, gtail, rfl⟩ := List.exists_cons_of_ne_nil hgE
          simp
        · right
          exact (ihs.1 j).mpr ⟨by omega, by omega⟩
    · rw [List.chain'_append]
      refine ⟨?_, ihs.2, ?_⟩
      · rw [List.chain'_map]
        exact List.Chain'.imp
          (fun u v h => ⟨le_refl k, fun _ => h⟩)
          (hchain g (List.mem_cons_self _ _))
      · intro x hx y hy
        have hxk : x.1 = k := by
          have hxm : x ∈ g.map (fun t => (k, t.endDate)) :=
            List.mem_of_mem_getLast? hx
          rw [List.mem_map] at hxm
          obtain ⟨u, -, hu⟩ := hxm
          rw [← hu]
        have hy1 : y.1 ∈ (((gs.enumFrom (k + 1)).map
            (fun p => p.2.map (fun t => (p.1, t.endDate)))).flatten.map Prod.fst) :=
          List.mem_map_of_mem Prod.fst (List.mem_of_mem_head? hy)
        have hyk := (ihs.1 y.1).mp hy1
        exact ⟨by omega, fun heq => absurd heq (by omega)⟩

theorem gd_assignGroup (i : ℕ) (g : List Task) :
    (assignGroup i g).map (fun p => (p.groupId, p.endDate))
      = g.map (fun t => (i, t.endDate)) := by
  rw [assignGroup, List.map_map]
  have h1 : ((fun p : PositionedAnnot => (p.groupId, p.endDate)) ∘
      (fun p : ℕ × Task =>
        ({ task := p.2
           y := (baseHeights g.length).getD p.1 0
           xOffset := (horizontalOffsets g.length).getD p.1 0
           endDate := p.2.endDate
           groupId := i } : PositionedAnnot)))
      = ((fun t : Task => (i, t.endDate)) ∘ Prod.snd) := rfl
  rw [h1, ← List.map_map, List.enum_map_snd]

theorem gd_assignBasePositions (groups : List (List Task)) :
    (assignBasePositions groups).map (fun p => (p.groupId, p.endDate))
      = ((groups.enumFrom 0).map
          (fun p => p.2.map (fun t => (p.1, t.endDate)))).flatten := by
  rw [assignBasePositions, List.map_flatten, List.map_map]
  have henum : groups.enum = groups.enumFrom 0 := rfl
  rw [henum]
  congr 1
  apply List.map_eq_map_iff.mpr
  intro p _
  exact gd_assignGroup p.1 p.2

theorem gd_resolveCollisions (base : List PositionedAnnot) :
    (resolveCollisions base).map (fun p => (p.groupId, p.endDate))
      = base.map (fun p => (p.groupId, p.endDate)) := by
  have h := congrArg
    (List.map (fun q : Task × ℚ × ℤ × ℕ => (q.2.2.2, q.2.2.1)))
    (resolveCollisions_frame base)
  rw [List.map_map, List.map_map] at h
  exact h

/-- Claim C10: for every non-empty input, the output's group ids form a
non-decreasing sequence that starts at 0 and contains every value from 0 up
to its maximum (groups are contiguous blocks in creation order), and
consecutive outputs of one group appear in non-decreasing end-date order. -/
theorem C10_group_structure (ts : List Task) (hne : ts ≠ []) :
    ((calculateSmartAnnotPositions ts).map (fun p => p.groupId)).head? = some 0
      ∧ (calculateSmartAnnotPositions ts).Chain'
          (fun p q => p.groupId ≤ q.groupId
            ∧ (p.groupId = q.groupId → p.endDate ≤ q.endDate))
      ∧ ∀ k ∈ (calculateSmartAnnotPositions ts).map (fun p => p.groupId),
          ∀ j : ℕ, j ≤ k →
            j ∈ (calculateSmartAnnotPositions ts).map (fun p => p.groupId) := by
  have hgd : (calculateSmartAnnotPositions ts).map
        (fun p => (p.groupId, p.endDate))
      = (((groupAnnots ts).enumFrom 0).map
          (fun p => p.2.map (fun t => (p.1, t.endDate)))).flatten := by
    rw [calculateSmartAnnotPositions, if_neg hne, gd_resolveCollisions,
      gd_assignBasePositions]
  have hspec := gd_flatten_spec (groupAnnots ts) 0 (groupAnnots_ne_nil ts)
    (groupAnnots_chain ts)
  have hids : (calculateSmartAnnotPositions ts).map (fun p => p.groupId)
      = ((calculateSmartAnnotPositions ts).map
          (fun p => (p.groupId, p.endDate))).map Prod.fst := by
    rw [List.map_map]
    rfl
  refine ⟨?_, ?_, ?_⟩
  · rw [hids, hgd]
    obtain ⟨g0, gs, hg⟩ := List.exists_cons_of_ne_nil
      (groupAnnots_ne_nil_of_ne_nil ts hne)
    obtain ⟨u, g0', hg0⟩ := List.exists_cons_of_ne_nil
      (groupAnnots_ne_nil ts g0 (by rw [hg]; exact List.mem_cons_self _ _))
    rw [hg, hg0]
    simp [List.enumFrom]
  · have hchain := hspec.2
    rw [← hgd] at hchain
    exact (List.chain'_map
      (fun p : PositionedAnnot => (p.groupId, p.endDate))).mp hchain
  · intro k hk j hj
    rw [hids, hgd] at hk ⊢
    have hk2 := (hspec.1 k).mp hk
    exact (hspec.1 j).mpr ⟨by omega, by omega⟩

theorem C10_group_structure_witness :
    ((calculateSmartAnnotPositions
        [{ taskName := "a", label := "a", endDate := 0 },
         { taskName := "b", label := "b", endDate := 10 },
         { taskName := "c", label := "c", endDate := 12 }]).map
      (fun p => p.groupId)).head? = some 0 :=
  (C10_group_structure
    [{ taskName := "a", label := "a", endDate := 0 },
     { taskName := "b", label := "b", endDate := 10 },
     { taskName := "c", label := "c", endDate := 12 }] (by simp)).1

theorem C2_scan_fallback_witness :
    scanValues = [95, 90, 85, 80, 75, 70, 65, 60, 55, 50, 45, 40, 35, 30, 25, 20, 15]
      ∧ adjustPosition pC2 exC2 =
          match scanValues.find? (fun c => !collides pC2 exC2 c) with
          | some c => (c, true)
          | none => (pC2.y, false) :=
  C2_scan_fallback pC2 exC2 (by
    intro c hc
    rw [shiftCandidatesC2] at hc
    fin_cases hc <;> (rw [collidesC2_eval]; norm_num [abs_lt]))

end Burnup
